import Mathlib

/-!
Shallow embedding of the zlink-indexer's sync/checkpoint engine, decoder
pipeline, retry governor and HTTP handlers, translated from the TypeScript
source (src/core/blockchain-sync.ts, src/core/zlink-Index.ts,
src/core/rate-limitter.ts, and the route handlers).

Block numbers are JavaScript numbers used only with +, -, min and
comparisons, so they are embedded as `Int` (JS subtraction can go below
zero). ABI decoding (ethers' AbiCoder, wrapped by EtherDecoder.decode) is an
external library capability; it is embedded as an explicit `DecodeOracle`
argument, mirroring the two call shapes used by the source (single type and
list of types). All stateful code is embedded as explicit state passing; the
externally visible effects of one loop iteration (RPC fetch, checkpoint
write, bulk inserts, sleeps) are reified as a trace of `Action`s in the
order the source awaits them.
-/

namespace ZlinkIndexer

/-- Event topics from src/config (TOPIC_SHIELD_ASSETS, TOPIC_UTXOS_UPDATE). -/
def TOPIC_SHIELD_ASSETS : String :=
  "0x92b167eff0c8136c9019a881f06cad6738b847c189e77da5c89112642b8dfaee"

def TOPIC_UTXOS_UPDATE : String :=
  "0x6c4dbf3caba6334c79e9d1a8e9e2566f13e707f15c68cb872504e451219ef705"

/-- `ILogRawData` from src/types: the fields the indexer reads. -/
structure ILogRawData where
  address : String
  topics : List String
  data : String
  blockNumber : Int
  transactionHash : String
  logIndex : Int
deriving DecidableEq, Repr

/-- `DecodeResult` from src/types: EtherDecoder.decode on a single type.
Decoded JS values are embedded as strings; `data` defaults to "" when the
source would read `undefined`. -/
structure DecodeResult where
  success : Bool
  data : String := ""
deriving DecidableEq, Repr

/-- `MultiDecodeResult` from src/types: EtherDecoder.decode on a type list;
`data` holds the per-type results in order. -/
structure MultiDecodeResult where
  success : Bool
  data : List String := []
deriving DecidableEq, Repr

/-- The external ABI-decoding capability (EtherDecoder.decode): the source
calls it with `(hex, dataType)` where dataType is a string or a string
array. Correctness of the pipeline must not depend on which oracle is
plugged in (the decoder is a pure library call with a read-through cache). -/
structure DecodeOracle where
  decodeSingle : String → String → DecodeResult
  decodeMulti : String → List String → MultiDecodeResult

/-- `result.type` in IIndexDecodedResponse: the two event kinds produced by
zLinkIndex.processLog. -/
inductive EventKind where
  | SHIELD_ASSETS
  | UTXOS_UPDATE
deriving DecidableEq, Repr

/-- The `leaf` field of IIndexDecodedResponse (treeIndex kept as the decoded
string; the source converts it with BigInt, which the claims never use
numerically). -/
structure LeafData where
  commitment : String
  treeIndex : String
deriving DecidableEq, Repr

/-- The public UTXO payload carried by a decoded ShieldAssets event
(`{shield_address, amount, nonce, token}`). -/
structure UTXOsPublicPayload where
  shield_address : String
  amount : String
  nonce : String
  token : String
deriving DecidableEq, Repr

/-- `IIndexDecodedResponse` from src/types, as produced by
decodeShieldAssetsEvent / decodeUTXOsUpdateEvent. -/
structure IIndexDecodedResponse where
  blockNumber : Int
  index : Int
  txid : String
  type : EventKind
  utxos : Option UTXOsPublicPayload := none
  encryptedUTXO : Option String := none
  leaf : LeafData
deriving DecidableEq, Repr

/-- `LeafCollectionDB` from src/types: one row of the "leafs" collection. -/
structure LeafCollectionDB where
  blockNumber : Int
  txid : String
  index : Int
  commitment : String
  treeIndex : String
deriving DecidableEq, Repr

/-- `UTXOsCollectionDB` from src/types: one row of the "unspents"
collection. Exactly one of UTXOs / encryptedUTXO is populated, selected by
isEncrypted. -/
structure UTXOsCollectionDB where
  isEncrypted : Bool
  blockNumber : Int
  txid : String
  UTXOs : Option UTXOsPublicPayload := none
  encryptedUTXO : Option String := none
deriving DecidableEq, Repr

/-- zLinkIndex.decodeUTXOsUpdateEvent: decode topics[1] as bytes32 and the
data as (bytes, uint256); throw if either decode reports failure. -/
def decodeUTXOsUpdateEvent (dec : DecodeOracle) (log : ILogRawData) :
    Except String IIndexDecodedResponse :=
  let commitment := dec.decodeSingle (log.topics.getD 1 "") "bytes32"
  let dataDecoded := dec.decodeMulti log.data ["bytes", "uint256"]
  if commitment.success = false ∨ dataDecoded.success = false then
    .error "Faild to decode UTXOsUpdate log"
  else
    .ok { blockNumber := log.blockNumber
          index := log.logIndex
          txid := log.transactionHash
          type := .UTXOS_UPDATE
          encryptedUTXO := some (dataDecoded.data.getD 0 "")
          leaf := { commitment := commitment.data
                    treeIndex := dataDecoded.data.getD 1 "" } }

/-- zLinkIndex.decodeShieldAssetsEvent: decode topics[1..3] and the data as
(uint256, uint256, uint256); throw if any decode reports failure. The
source reads amount from data[1], nonce from data[0], treeIndex from
data[2]. -/
def decodeShieldAssetsEvent (dec : DecodeOracle) (log : ILogRawData) :
    Except String IIndexDecodedResponse :=
  let shield_address := dec.decodeSingle (log.topics.getD 1 "") "bytes32"
  let commitment := dec.decodeSingle (log.topics.getD 2 "") "bytes32"
  let token := dec.decodeSingle (log.topics.getD 3 "") "address"
  let data := dec.decodeMulti log.data ["uint256", "uint256", "uint256"]
  let amount := data.data.getD 1 ""
  let nonce := data.data.getD 0 ""
  let treeIndex := data.data.getD 2 ""
  if shield_address.success = false ∨ commitment.success = false ∨
      token.success = false ∨ data.success = false then
    .error "Faild to decode ShieldAssets log"
  else
    .ok { blockNumber := log.blockNumber
          index := log.logIndex
          txid := log.transactionHash
          type := .SHIELD_ASSETS
          utxos := some { shield_address := shield_address.data
                          amount := amount
                          nonce := nonce
                          token := token.data }
          leaf := { commitment := commitment.data, treeIndex := treeIndex } }

/-- zLinkIndex.processLog: dispatch on topics[0]; an unmatched first topic
is silently mapped to nothing (undefined in the source). -/
def processLog (dec : DecodeOracle) (log : ILogRawData) :
    Except String (Option IIndexDecodedResponse) :=
  let topic := log.topics.getD 0 ""
  if topic = TOPIC_SHIELD_ASSETS then
    (decodeShieldAssetsEvent dec log).map some
  else if topic = TOPIC_UTXOS_UPDATE then
    (decodeUTXOsUpdateEvent dec log).map some
  else
    .ok none

/-- The `Promise.all(logs.map(processLog))` of zLinkIndex.index: the whole
call rejects as soon as any single log's decode throws (a rejected promise
rejects the `Promise.all`). -/
def processAllLogs (dec : DecodeOracle) :
    List ILogRawData → Except String (List (Option IIndexDecodedResponse))
  | [] => .ok []
  | l :: ls =>
    match processLog dec l with
    | .error e => .error e
    | .ok r =>
      match processAllLogs dec ls with
      | .error e => .error e
      | .ok rs => .ok (r :: rs)

/-- The leaf row pushed by zLinkIndex.IndexOnDB for one decoded result. -/
def leafRowOf (r : IIndexDecodedResponse) : LeafCollectionDB :=
  { blockNumber := r.blockNumber
    txid := r.txid
    index := r.index
    commitment := r.leaf.commitment
    treeIndex := r.leaf.treeIndex }

/-- The unspent row pushed by zLinkIndex.IndexOnDB for one decoded result:
unencrypted for SHIELD_ASSETS, encrypted for UTXOS_UPDATE. -/
def unspentRowOf (r : IIndexDecodedResponse) : UTXOsCollectionDB :=
  match r.type with
  | .SHIELD_ASSETS =>
    { UTXOs := r.utxos, isEncrypted := false
      blockNumber := r.blockNumber, txid := r.txid }
  | .UTXOS_UPDATE =>
    { encryptedUTXO := r.encryptedUTXO, isEncrypted := true
      blockNumber := r.blockNumber, txid := r.txid }

/-- zLinkIndex.IndexOnDB: build the Leafs and Unspents arrays from the
decoded results, then filter the unspents by the hard-coded block threshold
`d.blockNumber >= 9486466` before the insert call. Returns the three
arrays (Leafs, Unspents before filtering, unspentsToInsert); the insert
calls receive the first and the third, and are only issued when the first
resp. second is non-empty. -/
def IndexOnDB (results : List IIndexDecodedResponse) :
    List LeafCollectionDB × List UTXOsCollectionDB × List UTXOsCollectionDB :=
  let Leafs := results.map leafRowOf
  let Unspents := results.map unspentRowOf
  let unspentsToInsert := Unspents.filter (fun d => d.blockNumber ≥ 9486466)
  (Leafs, Unspents, unspentsToInsert)

/-- zLinkIndex.index: decode every log (rejecting on the first decode
failure), drop the undefined results (unmatched topics), and hand the rest
to IndexOnDB. Returns the rows passed to the two insert calls. -/
def indexLogs (dec : DecodeOracle) (logs : List ILogRawData) :
    Except String (List LeafCollectionDB × List UTXOsCollectionDB × List UTXOsCollectionDB) :=
  match processAllLogs dec logs with
  | .error e => .error e
  | .ok results =>
    if results.length = 0 then .ok ([], [], [])
    else .ok (IndexOnDB (results.filterMap id))

/-! ## Sync engine (src/core/blockchain-sync.ts) -/

/-- The configuration the sync engine reads (config.block_difference,
SYNC_CONFIG.MAX_BLOCKS_PER_BATCH = config.batchSize,
SYNC_CONFIG.SYNC_CYCLE_DELAY_MS = config.retryDelay). -/
structure SyncConfig where
  blockDifference : Int
  maxBlocksPerBatch : Int
  syncCycleDelayMs : Int
deriving DecidableEq, Repr

/-- The mutable fields of BlockChainSync that the loop logic reads and
writes (startBlockNumber, latestBlockNumber). -/
structure SyncState where
  startBlockNumber : Int
  latestBlockNumber : Int
deriving DecidableEq, Repr

/-- One externally visible effect of the engine, in the order the source
awaits them: the ranged getETHLogs call, the checkpoint upsert
(zLinkIndexer.updateCheckPoint), the two bulk inserts, and sleeps. -/
inductive Action where
  | fetchLogs (fromBlock toBlock : Int)
  | writeCheckpoint (lastIndexedBlock latestBlock : Int)
  | insertLeaves (records : List LeafCollectionDB)
  | insertUnspents (records : List UTXOsCollectionDB)
  | sleepMs (ms : Int)
deriving DecidableEq, Repr

def Action.isInsert : Action → Bool
  | .insertLeaves _ => true
  | .insertUnspents _ => true
  | _ => false

def Action.isCheckpoint : Action → Bool
  | .writeCheckpoint _ _ => true
  | _ => false

def Action.isFetch : Action → Bool
  | .fetchLogs _ _ => true
  | _ => false

def Action.isSleep : Action → Bool
  | .sleepMs _ => true
  | _ => false

/-- The lastIndexedBlock values of the checkpoint writes in a trace, in
order. -/
def checkpointValues (tr : List Action) : List Int :=
  tr.filterMap fun a =>
    match a with
    | .writeCheckpoint v _ => some v
    | _ => none

/-- BlockChainSync.calculateBlockRange: endBlock trails the head by
block_difference; the end is capped to startBlock + MAX_BLOCKS_PER_BATCH
only when the span exceeds the batch size. (`endB` embeds the source field
`end`, a Lean keyword.) -/
structure BlockRange where
  start : Int
  endB : Int
  difference : Int
deriving DecidableEq, Repr

def calculateBlockRange (cfg : SyncConfig) (s : SyncState) : BlockRange :=
  let startBlock := s.startBlockNumber
  let endBlock := s.latestBlockNumber - cfg.blockDifference
  let difference := endBlock - startBlock
  let e :=
    if difference > cfg.maxBlocksPerBatch then
      min (startBlock + cfg.maxBlocksPerBatch) endBlock
    else endBlock
  { start := startBlock, endB := e, difference := difference }

/-- The state after BlockChainSync.runSync: if the computed range is
non-empty the engine fetches it and advances startBlockNumber to end + 1;
otherwise ("No new blocks to process") the state is unchanged. -/
def afterRunSync (cfg : SyncConfig) (s : SyncState) : SyncState :=
  let r := calculateBlockRange cfg s
  if r.start > r.endB then s else { s with startBlockNumber := r.endB + 1 }

/-- The RPC fetch performed by runSync (getETHLogs over the whole range in
one ranged call), absent when the range is empty. -/
def fetchTrace (cfg : SyncConfig) (s : SyncState) : List Action :=
  let r := calculateBlockRange cfg s
  if r.start > r.endB then [] else [.fetchLogs r.start r.endB]

/-- The logs buffer handed to zLinkIndexer.index by the iteration: the
fetch result when a fetch happened, empty otherwise. -/
def iterLogsData (cfg : SyncConfig) (s : SyncState)
    (logs : List ILogRawData) : List ILogRawData :=
  if (calculateBlockRange cfg s).start > (calculateBlockRange cfg s).endB then []
  else logs

/-- The insert calls issued by zLinkIndexer.index / IndexOnDB for the
iteration's logs (source guards: insertLeaf only when Leafs.length > 0,
insertUTXOs only when Unspents.length > 0, and the latter receives the
threshold-filtered unspentsToInsert array), paired with whether index
completed without throwing. -/
def insertTrace (dec : DecodeOracle) (logsData : List ILogRawData) :
    List Action × Bool :=
  match indexLogs dec logsData with
  | .error _ => ([], false)
  | .ok (leafRows, unspentRows, unspentsToInsert) =>
    ((if leafRows.length > 0 then [.insertLeaves leafRows] else []) ++
     (if unspentRows.length > 0 then [.insertUnspents unspentsToInsert] else []),
     true)

/-- One iteration of the inner while-loop of BlockChainSync.startSync, for
an iteration whose RPC fetch succeeds and returns `logs`: runSync
(calculateBlockRange; fetch unless start > end; advance startBlockNumber
to end + 1), then updateCheckPoint, then index. Returns the effect trace
in source await order, the state after the iteration, and whether the
iteration completed without throwing (decoding may still throw after the
checkpoint write, in which case the insert calls never happen). The source
also accumulates logsData across failed iterations; that buffer is passed
here as the fresh fetch result, its value on the paths the claims
exercise. -/
def innerIteration (cfg : SyncConfig) (dec : DecodeOracle) (s : SyncState)
    (logs : List ILogRawData) : List Action × SyncState × Bool :=
  let s2 := afterRunSync cfg s
  let (insertActs, ok) := insertTrace dec (iterLogsData cfg s logs)
  (fetchTrace cfg s ++
     .writeCheckpoint s2.startBlockNumber s2.latestBlockNumber :: insertActs,
   s2, ok)

/-- BlockChainSync.initializeConnection, given the height returned by
getLatestBlockNumber: latestBlockNumber keeps its old value when
startBlockNumber is nonzero and the height has not passed it. -/
def initConnection (s : SyncState) (height : Int) : SyncState :=
  if s.startBlockNumber ≠ 0 ∧ height ≤ s.startBlockNumber then s
  else { s with latestBlockNumber := height }

/-- One round of the outer while-loop of startSync, up to its first piece
of work: initializeConnection observes `height`; if the inner guard
startBlockNumber < latestBlockNumber holds, the first inner iteration runs
(with `logs` as its fetch result); otherwise the round only sleeps
SYNC_CYCLE_DELAY_MS before re-reading the height. -/
def outerRoundFirstStep (cfg : SyncConfig) (dec : DecodeOracle)
    (s : SyncState) (height : Int) (logs : List ILogRawData) :
    List Action × SyncState :=
  let s1 := initConnection s height
  if s1.startBlockNumber < s1.latestBlockNumber then
    let (tr, s2, _) := innerIteration cfg dec s1 logs
    (tr, s2)
  else
    ([.sleepMs cfg.syncCycleDelayMs], s1)

/-- An input event of an engine run: either an outer round observing a new
chain height, or an inner iteration whose fetch returns the given logs. -/
inductive SyncEvent where
  | newHeight (h : Int)
  | iteration (logs : List ILogRawData)

/-- A run of the engine over a sequence of events: newHeight events pass
through initializeConnection, iteration events run the inner loop body
(guarded, as in the source, by startBlockNumber < latestBlockNumber). -/
def runEvents (cfg : SyncConfig) (dec : DecodeOracle) :
    SyncState → List SyncEvent → List Action × SyncState
  | s, [] => ([], s)
  | s, .newHeight h :: rest => runEvents cfg dec (initConnection s h) rest
  | s, .iteration logs :: rest =>
    if s.startBlockNumber < s.latestBlockNumber then
      let (tr, s2, _) := innerIteration cfg dec s logs
      let (tr2, s3) := runEvents cfg dec s2 rest
      (tr ++ tr2, s3)
    else
      runEvents cfg dec s rest

/-! ## Error counter of startSync -/

/-- The outcome of one inner-loop iteration as seen by the try/catch in
startSync. -/
inductive IterOutcome where
  | success
  | failure
deriving DecidableEq, Repr

/-- The erroCount logic of startSync's inner loop: `erroCount++` on every
caught error, stop when `erroCount > 10`; a successful iteration leaves the
counter untouched (the source never resets it). Returns the final counter
and whether the loop stopped because of errors. -/
def runWithErrors : Nat → List IterOutcome → Nat × Bool
  | c, [] => (c, false)
  | c, .success :: rest => runWithErrors c rest
  | c, .failure :: rest =>
    if c + 1 > 10 then (c + 1, true) else runWithErrors (c + 1) rest

/-- Number of failed iterations in an outcome list. -/
def countFailures (l : List IterOutcome) : Nat :=
  l.countP (fun o => o == .failure)

/-! ## Retry governor (src/core/rate-limitter.ts, RateLimiter.executeWithRetry) -/

/-- The error thrown when the retry budget is exhausted: it carries the
operation name, the last error's message and the configured maxRetries
(the source attaches them as isMaxRetryFailure / originalError /
operationName / maxRetries). -/
structure MaxRetryError where
  operationName : String
  lastErrorMessage : String
  maxRetries : Nat
deriving DecidableEq, Repr

/-- The retry loop of executeWithRetry. The operation is embedded as a
function of the attempt number (1-based). `remaining` counts the attempts
left (maxRetries - attempt + 1); on a failure that is not the last attempt
the loop records the backoff delay retryDelay * 2 ^ (attempt - 1) and
retries. The endpoint-switch block only produces log/statistics side
effects (its own exceptions are swallowed), so it contributes nothing to
the result or the delays. The `remaining = 0` base case embeds the
maxRetries = 0 source behavior of falling through the loop and crashing on
`lastError.message` (lastError is undefined there). -/
def retryAux {α : Type} (op : Nat → Except String α) (retryDelay : Nat)
    (name : String) (maxRetries : Nat) :
    Nat → Nat → List Nat → Except MaxRetryError α × List Nat
  | _attempt, 0, delays =>
    (.error { operationName := name, lastErrorMessage := "undefined"
              maxRetries := maxRetries }, delays)
  | attempt, r + 1, delays =>
    match op attempt with
    | .ok a => (.ok a, delays)
    | .error e =>
      if r = 0 then
        (.error { operationName := name, lastErrorMessage := e
                  maxRetries := maxRetries }, delays)
      else
        retryAux op retryDelay name maxRetries (attempt + 1) r
          (delays ++ [retryDelay * 2 ^ (attempt - 1)])

/-- RateLimiter.executeWithRetry: run the operation for attempts
1..maxRetries, sleeping retryDelay * 2 ^ (attempt - 1) between consecutive
attempts; return the first success, or the max-retry error after the last
failure. The second component is the list of backoff delays slept, in
order. -/
def executeWithRetry {α : Type} (maxRetries retryDelay : Nat) (name : String)
    (op : Nat → Except String α) : Except MaxRetryError α × List Nat :=
  retryAux op retryDelay name maxRetries 1 maxRetries []

/-! ## HTTP handlers (src/server routes) -/

/-- Response of the /utxos route (src/server/get-utxos.ts). The `result`
payload keeps the selected unspent rows; the source additionally renders
them (the encrypted payload string, or the hex-encoded JSON of the public
payload), a presentation step after the row whose required field is absent
is dropped. -/
inductive UTXOsResponse where
  | badRequest (message : String)
  | ok (start endQ : Int) (total : Int) (remaining : Bool)
      (result : List UTXOsCollectionDB)
deriving DecidableEq, Repr

/-- getUTXOs (src/server/get-utxos.ts): validate utxos_type, apply the
MAX_LIMIT = 1100 guard as written in the source (`Number(start) -
Number(end) > MAX_LIMIT`), then page the matching rows with
skip(start).limit(end) and drop rows missing the payload selected by the
kind. -/
def getUTXOsHandler (db : List UTXOsCollectionDB) (start endQ : Int)
    (utxos_type : String) : UTXOsResponse :=
  if utxos_type ≠ "encrypted" ∧ utxos_type ≠ "unencrypted" then
    .badRequest "Invalid utxos type"
  else if start - endQ > 1100 then
    .badRequest "Max limit exceeded"
  else
    let enc := utxos_type = "encrypted"
    let matching := db.filter (fun u => u.isEncrypted = enc)
    let utxos := (matching.drop start.toNat).take endQ.toNat
    let total : Int := matching.length
    let onlyData := utxos.filter
      (fun u => if enc then u.encryptedUTXO.isSome else u.UTXOs.isSome)
    .ok start endQ total (total - endQ > 0) onlyData

/-- Body of the relayer submit-proof request (SubmitTXRequest): the three
base64 fields; absent fields are `none` (the source destructures req.body
and rejects when any is falsy). -/
structure SubmitTXRequest where
  proof : Option String
  publicSignals : Option String
  encryptedData : Option String
deriving DecidableEq, Repr

/-- An HTTP JSON response of the relayer route. -/
structure HttpResponse where
  status : Int
  isSuccess : Bool
  message : String := ""
  txHash : Option String := none
deriving DecidableEq, Repr

/-- submitTX (src/server/submit-tx.ts): the guards in source order —
missing relayer private key, unknown method, missing body field — then the
contract call. `chain` embeds the ZLinkContract call for the chosen
method, returning the transaction hash or `none` for a falsy result; the
second component lists the chain submissions attempted, so "no transaction
is ever submitted" is `= []`. (The base64/JSON decoding of the body fields
happens after the guards and cannot run when a guard fires.) -/
def submitTX (chain : String → Option String) (private_key : Option String)
    (methods : String) (body : SubmitTXRequest) : HttpResponse × List String :=
  if private_key.isNone then
    ({ status := 400, isSuccess := false,
       message := "Relayer is unavailable !!!" }, [])
  else if methods ≠ "unshieldNative" ∧ methods ≠ "transferPrivate" then
    ({ status := 400, isSuccess := false, message := "Invalid method" }, [])
  else if body.proof.isNone ∨ body.publicSignals.isNone ∨
      body.encryptedData.isNone then
    ({ status := 400, isSuccess := false, message := "Invalid request" }, [])
  else
    match chain methods with
    | none =>
      ({ status := 500, isSuccess := false, message := "Transaction failed" },
       [methods])
    | some txHash =>
      ({ status := 200, isSuccess := true, txHash := some txHash }, [methods])

/-! ## Concrete fixtures for closed theorems and witnesses -/

/-- The configuration of the end-to-end scenario: blockDifference 10,
maxBlocksPerBatch 1000. -/
def cfgEx : SyncConfig :=
  { blockDifference := 10, maxBlocksPerBatch := 1000, syncCycleDelayMs := 1000 }

/-- A decode oracle on which every ABI decode succeeds. -/
def trivialOracle : DecodeOracle :=
  { decodeSingle := fun _ _ => { success := true, data := "v" }
    decodeMulti := fun _ _ => { success := true, data := ["a", "b", "c"] } }

/-- A decode oracle that fails exactly on the payload "0xbad" (one
malformed event data field). -/
def failingOracle : DecodeOracle :=
  { decodeSingle := fun _ _ => { success := true, data := "v" }
    decodeMulti := fun hex _ =>
      if hex = "0xbad" then { success := false }
      else { success := true, data := ["a", "b", "c"] } }

/-- A well-formed UTXOsUpdate log. -/
def goodLog : ILogRawData :=
  { address := "0xc", topics := [TOPIC_UTXOS_UPDATE, "0xt1"], data := "0xgood",
    blockNumber := 9486470, transactionHash := "0xtx1", logIndex := 0 }

/-- A UTXOsUpdate log whose data fails to ABI-decode. -/
def badLog : ILogRawData :=
  { address := "0xc", topics := [TOPIC_UTXOS_UPDATE, "0xt2"], data := "0xbad",
    blockNumber := 9486471, transactionHash := "0xtx2", logIndex := 1 }

/-- A decoded ShieldAssets result at a block below the hard-coded 9486466
insert threshold. -/
def shieldResultEx : IIndexDecodedResponse :=
  { blockNumber := 100, index := 0, txid := "0xtx", type := .SHIELD_ASSETS,
    utxos := some ⟨"a", "1", "2", "t"⟩, leaf := ⟨"c", "3"⟩ }

/-- A one-row unspent store holding a single encrypted record. -/
def sampleDB : List UTXOsCollectionDB :=
  [{ isEncrypted := true, blockNumber := 9486470, txid := "0xa",
     encryptedUTXO := some "enc1" }]

/-- An operation that fails on every attempt. -/
def opFail : Nat → Except String Nat := fun _ => .error "boom"

/-! ## Claim theorems -/

/-- C3: from a checkpoint with lastIndexedBlock 100, with currentHeight 150,
blockDifference 10 and maxBlocksPerBatch 1000, one successful iteration
computes the range [100, 140] — the end being min(lastIndexedBlock +
maxBlocksPerBatch, currentHeight - blockDifference) — fetches it, and
writes the checkpoint {lastIndexedBlock := 141, latestObservedBlock :=
150}, leaving the in-memory cursor at 141. -/
theorem sync_scenario_100_150 :
    initConnection ⟨100, 0⟩ 150 = ⟨100, 150⟩ ∧
    calculateBlockRange cfgEx ⟨100, 150⟩ = ⟨100, 140, 40⟩ ∧
    (140 : Int) = min (100 + cfgEx.maxBlocksPerBatch) (150 - cfgEx.blockDifference) ∧
    (innerIteration cfgEx trivialOracle ⟨100, 150⟩ []).1 =
      [.fetchLogs 100 140, .writeCheckpoint 141 150] ∧
    (innerIteration cfgEx trivialOracle ⟨100, 150⟩ []).2.1 = ⟨141, 150⟩ := by
  refine ⟨by decide, by decide, by decide, by decide, by decide⟩

/-- C10: with no relayer private key configured, every request to the
submit-proof route — any method, any body, any chain behavior — receives
HTTP 400 "Relayer is unavailable !!!" and no transaction is submitted to
the chain. -/
theorem submitTX_no_relayer_key (chain : String → Option String)
    (methods : String) (body : SubmitTXRequest) :
    submitTX chain none methods body =
      ({ status := 400, isSuccess := false,
         message := "Relayer is unavailable !!!" }, []) := rfl

/-- C9 (code bug): a request for the span [0, 2000] — 2000 records, beyond
the MAX_LIMIT = 1100 cap — is served rather than rejected, because the
source guard tests `start - end > 1100` (operands reversed); the guard
fires instead on start = 2000, end = 0, whose requested span is empty. -/
theorem getUTXOs_span_guard_reversed :
    ((2000 : Int) - 0 > 1100) ∧
    getUTXOsHandler sampleDB 0 2000 "encrypted" =
      .ok 0 2000 1 false
        [{ isEncrypted := true, blockNumber := 9486470, txid := "0xa",
           encryptedUTXO := some "enc1" }] ∧
    getUTXOsHandler sampleDB 2000 0 "encrypted" =
      .badRequest "Max limit exceeded" := by
  refine ⟨by decide, by decide, by decide⟩

/-- C2 counterexample: in the scenario of C3 the successfully fetched range
is [100, 140], yet the checkpoint write that iteration performs records
lastIndexedBlock = 141, not the end block 140 of the fetched range. -/
theorem checkpoint_value_not_range_end :
    calculateBlockRange cfgEx ⟨100, 150⟩ = ⟨100, 140, 40⟩ ∧
    checkpointValues (innerIteration cfgEx trivialOracle ⟨100, 150⟩ []).1 =
      [141] ∧
    (141 : Int) ≠ 140 := by
  refine ⟨by decide, by decide, by decide⟩

/-- C4 counterexample: eleven failures, each a streak of length one
separated by successes, stop the engine — the counter is never reset by the
interleaved successful iterations, so failure streaks shorter than 10 do
stop the sync. -/
theorem error_counter_interleaved_stops :
    (runWithErrors 0
      ((List.replicate 11 [IterOutcome.failure, IterOutcome.success]).flatten)).2
      = true := by decide

/-- C5 counterexample: the bad log decodes to a thrown error; alone, the
good log is decoded and its rows are passed to the inserts; but a batch
containing the single bad log rejects as a whole — the good log's records
are not persisted and the iteration fails, instead of the one bad log being
dropped. -/
theorem decode_failure_fails_batch :
    processLog failingOracle badLog = .error "Faild to decode UTXOsUpdate log" ∧
    indexLogs failingOracle [goodLog] =
      .ok ([{ blockNumber := 9486470, txid := "0xtx1", index := 0,
              commitment := "v", treeIndex := "b" }],
           [{ isEncrypted := true, blockNumber := 9486470, txid := "0xtx1",
              encryptedUTXO := some "a" }],
           [{ isEncrypted := true, blockNumber := 9486470, txid := "0xtx1",
              encryptedUTXO := some "a" }]) ∧
    indexLogs failingOracle [goodLog, badLog] =
      .error "Faild to decode UTXOsUpdate log" := by
  refine ⟨rfl, rfl, rfl⟩

/-- C6 counterexample: a ShieldAssets event at block 100 produces its
unencrypted unspent row, but the row is withheld from the insert call —
the source filters unspents to blockNumber ≥ 9486466 before inserting, a
reason other than a uniqueness-key duplicate. -/
theorem unspent_below_threshold_withheld :
    shieldResultEx.type = .SHIELD_ASSETS ∧
    (IndexOnDB [shieldResultEx]).2.1 = [unspentRowOf shieldResultEx] ∧
    (unspentRowOf shieldResultEx).isEncrypted = false ∧
    (IndexOnDB [shieldResultEx]).2.2 = [] := by
  refine ⟨by decide, by decide, by decide, by decide⟩

/-- C8 counterexample: with lastIndexedBlock 145, currentHeight 150 and
blockDifference 10 the claim's no-work condition 150 - 10 ≤ 145 holds, yet
the round is not an idle wait: it performs a checkpoint write (rewriting
145) and no sleep. -/
theorem idle_condition_checkpoint_written :
    ((150 : Int) - cfgEx.blockDifference ≤ 145) ∧
    (outerRoundFirstStep cfgEx trivialOracle ⟨145, 0⟩ 150 []).1 =
      [.writeCheckpoint 145 150] := by
  refine ⟨by decide, by decide⟩

/-- The fetch part of an iteration trace contains neither inserts nor
checkpoint writes. -/
theorem fetchTrace_no_insert_checkpoint (cfg : SyncConfig) (s : SyncState) :
    (fetchTrace cfg s).all (fun a => !a.isInsert && !a.isCheckpoint) = true := by
  unfold fetchTrace
  dsimp only
  split <;> rfl

/-- The insert part of an iteration trace contains no checkpoint writes. -/
theorem insertTrace_no_checkpoint (dec : DecodeOracle)
    (logsData : List ILogRawData) :
    ((insertTrace dec logsData).1).all (fun a => !a.isCheckpoint) = true := by
  rcases h : indexLogs dec logsData with e | ⟨l, u, ui⟩
  · simp [insertTrace, h]
  · simp only [insertTrace, h]
    split <;> split <;> rfl

/-- C1: the trace of any inner-loop iteration decomposes as a prefix with
no record insert, then the checkpoint write, then a suffix holding whatever
inserts happen — so the checkpoint write recording the batch strictly
precedes every LeafRecord/UnspentRecord insert of that batch, and a crash
at the prefix boundary (right after the checkpoint write) leaves the
checkpoint advanced with the batch's records absent (or, between the two
insert calls, partially present). -/
theorem checkpoint_write_precedes_inserts (cfg : SyncConfig)
    (dec : DecodeOracle) (s : SyncState) (logs : List ILogRawData) :
    ∃ pre v h post,
      (innerIteration cfg dec s logs).1 =
        pre ++ Action.writeCheckpoint v h :: post ∧
      pre.all (fun a => !a.isInsert && !a.isCheckpoint) = true ∧
      post.all (fun a => !a.isCheckpoint) = true := by
  refine ⟨fetchTrace cfg s, (afterRunSync cfg s).startBlockNumber,
    (afterRunSync cfg s).latestBlockNumber,
    (insertTrace dec (iterLogsData cfg s logs)).1, ?_,
    fetchTrace_no_insert_checkpoint cfg s, insertTrace_no_checkpoint dec _⟩
  unfold innerIteration
  rcases hit : insertTrace dec (iterLogsData cfg s logs) with ⟨ins, ok⟩
  simp [hit]

theorem checkpointValues_append (l1 l2 : List Action) :
    checkpointValues (l1 ++ l2) = checkpointValues l1 ++ checkpointValues l2 :=
  List.filterMap_append l1 l2 _

theorem checkpointValues_of_no_checkpoint (tr : List Action)
    (h : tr.all (fun a => !a.isCheckpoint) = true) :
    checkpointValues tr = [] := by
  induction tr with
  | nil => rfl
  | cons a t ih =>
    rw [List.all_cons, Bool.and_eq_true] at h
    cases a <;>
      simp only [checkpointValues, List.filterMap_cons] at ih ⊢ <;>
      first
        | exact ih h.2
        | simp [Action.isCheckpoint] at h

theorem fetchTrace_no_checkpoint (cfg : SyncConfig) (s : SyncState) :
    (fetchTrace cfg s).all (fun a => !a.isCheckpoint) = true := by
  unfold fetchTrace
  dsimp only
  split <;> rfl

/-- Every inner-loop iteration writes exactly one checkpoint, whose
lastIndexedBlock is the in-memory cursor after runSync. -/
theorem checkpointValues_innerIteration (cfg : SyncConfig) (dec : DecodeOracle)
    (s : SyncState) (logs : List ILogRawData) :
    checkpointValues (innerIteration cfg dec s logs).1 =
      [(afterRunSync cfg s).startBlockNumber] := by
  unfold innerIteration
  rcases hit : insertTrace dec (iterLogsData cfg s logs) with ⟨ins, ok⟩
  have hins : ins.all (fun a => !a.isCheckpoint) = true := by
    have := insertTrace_no_checkpoint dec (iterLogsData cfg s logs)
    rwa [hit] at this
  simp only [hit]
  rw [checkpointValues_append,
    checkpointValues_of_no_checkpoint _ (fetchTrace_no_checkpoint cfg s)]
  simp only [checkpointValues, List.filterMap_cons]
  have hnil := checkpointValues_of_no_checkpoint ins hins
  simp only [checkpointValues] at hnil
  rw [hnil]
  rfl

/-- runSync never moves the in-memory cursor backwards. -/
theorem afterRunSync_start_le (cfg : SyncConfig) (s : SyncState) :
    s.startBlockNumber ≤ (afterRunSync cfg s).startBlockNumber := by
  unfold afterRunSync
  dsimp only
  split
  · exact le_refl _
  · rename_i h
    have hs : (calculateBlockRange cfg s).start = s.startBlockNumber := rfl
    simp only [not_lt] at h
    rw [hs] at h
    simp only
    omega

theorem innerIteration_state (cfg : SyncConfig) (dec : DecodeOracle)
    (s : SyncState) (logs : List ILogRawData) :
    (innerIteration cfg dec s logs).2.1 = afterRunSync cfg s := by
  unfold innerIteration
  rcases hit : insertTrace dec (iterLogsData cfg s logs) with ⟨ins, ok⟩
  simp [hit]

theorem initConnection_start (s : SyncState) (h : Int) :
    (initConnection s h).startBlockNumber = s.startBlockNumber := by
  unfold initConnection
  split <;> rfl

theorem runEvents_iteration_pos (cfg : SyncConfig) (dec : DecodeOracle)
    (s : SyncState) (logs : List ILogRawData) (rest : List SyncEvent)
    (h : s.startBlockNumber < s.latestBlockNumber) :
    runEvents cfg dec s (.iteration logs :: rest) =
      ((innerIteration cfg dec s logs).1 ++
        (runEvents cfg dec (innerIteration cfg dec s logs).2.1 rest).1,
       (runEvents cfg dec (innerIteration cfg dec s logs).2.1 rest).2) := by
  rcases hi : innerIteration cfg dec s logs with ⟨tr, s2, ok⟩
  rcases hr : runEvents cfg dec s2 rest with ⟨tr2, s3⟩
  simp [runEvents, h, hi, hr]

theorem runEvents_iteration_neg (cfg : SyncConfig) (dec : DecodeOracle)
    (s : SyncState) (logs : List ILogRawData) (rest : List SyncEvent)
    (h : ¬ s.startBlockNumber < s.latestBlockNumber) :
    runEvents cfg dec s (.iteration logs :: rest) = runEvents cfg dec s rest := by
  simp [runEvents, h]

/-- Across any run, the sequence of written lastIndexedBlock values is
chained by ≤ and bounded below by the starting cursor. -/
theorem runEvents_checkpoints_mono (cfg : SyncConfig) (dec : DecodeOracle) :
    ∀ (evs : List SyncEvent) (s : SyncState),
      List.Chain' (· ≤ ·) (checkpointValues (runEvents cfg dec s evs).1) ∧
      ∀ v ∈ checkpointValues (runEvents cfg dec s evs).1,
        s.startBlockNumber ≤ v := by
  intro evs
  induction evs with
  | nil =>
    intro s
    exact ⟨List.chain'_nil, by simp [runEvents, checkpointValues]⟩
  | cons e rest ih =>
    intro s
    cases e with
    | newHeight h =>
      have hrw : runEvents cfg dec s (.newHeight h :: rest) =
          runEvents cfg dec (initConnection s h) rest := by
        simp [runEvents]
      rw [hrw]
      refine ⟨(ih (initConnection s h)).1, fun v hv => ?_⟩
      have := (ih (initConnection s h)).2 v hv
      rwa [initConnection_start] at this
    | iteration logs =>
      by_cases hg : s.startBlockNumber < s.latestBlockNumber
      · rw [runEvents_iteration_pos cfg dec s logs rest hg]
        set s2 := (innerIteration cfg dec s logs).2.1 with hs2
        have hstart2 : s.startBlockNumber ≤ s2.startBlockNumber := by
          rw [hs2, innerIteration_state]
          exact afterRunSync_start_le cfg s
        have hcv : checkpointValues (innerIteration cfg dec s logs).1 =
            [s2.startBlockNumber] := by
          rw [checkpointValues_innerIteration, hs2, innerIteration_state]
        have ih2 := ih s2
        constructor
        · simp only [checkpointValues_append, hcv]
          rw [List.singleton_append, List.chain'_cons']
          refine ⟨fun w hw => ?_, ih2.1⟩
          have hwmem : w ∈ checkpointValues (runEvents cfg dec s2 rest).1 :=
            List.mem_of_mem_head? hw
          exact ih2.2 w hwmem
        · intro v hv
          simp only [checkpointValues_append, hcv, List.singleton_append,
            List.mem_cons] at hv
          rcases hv with rfl | hv
          · exact hstart2
          · exact le_trans hstart2 (ih2.2 v hv)
      · rw [runEvents_iteration_neg cfg dec s logs rest hg]
        exact ih s

/-- C2 (amended): across every run the stored lastIndexedBlock values are
non-decreasing, and an iteration that successfully fetches the range
[start, end] writes end + 1 (the cursor already advanced past the range),
not end itself; an iteration whose range is empty rewrites the unchanged
cursor. -/
theorem checkpoint_monotone_and_end_succ (cfg : SyncConfig)
    (dec : DecodeOracle) :
    (∀ (s : SyncState) (evs : List SyncEvent),
      List.Chain' (· ≤ ·) (checkpointValues (runEvents cfg dec s evs).1)) ∧
    (∀ (s : SyncState) (logs : List ILogRawData),
      (calculateBlockRange cfg s).start ≤ (calculateBlockRange cfg s).endB →
      checkpointValues (innerIteration cfg dec s logs).1 =
        [(calculateBlockRange cfg s).endB + 1]) := by
  constructor
  · intro s evs
    exact (runEvents_checkpoints_mono cfg dec evs s).1
  · intro s logs hle
    rw [checkpointValues_innerIteration]
    unfold afterRunSync
    dsimp only
    split
    · rename_i hgt
      omega
    · rfl

/-- Witness for C2 (amended): the fetched range of the C3 scenario ends at
140 and the checkpoint write records 141 = 140 + 1. -/
theorem checkpoint_monotone_and_end_succ_witness :
    checkpointValues (innerIteration cfgEx trivialOracle ⟨100, 150⟩ []).1 =
      [(calculateBlockRange cfgEx ⟨100, 150⟩).endB + 1] :=
  (checkpoint_monotone_and_end_succ cfgEx trivialOracle).2 ⟨100, 150⟩ []
    (by decide)

/-- C4 (amended): startSync's error counter is cumulative, not
consecutive — no successful iteration resets it. Starting from a counter
c ≤ 10, the loop stops due to errors exactly when the total number of
failed iterations reaches 11 - c (for a fresh engine, on the 11th failure
of the whole run, however the failures interleave with successes), and
while it has not stopped the counter equals c plus the number of failures
seen. -/
theorem error_counter_cumulative :
    ∀ (l : List IterOutcome) (c : Nat), c ≤ 10 →
      ((runWithErrors c l).2 = true ↔ 11 ≤ c + countFailures l) ∧
      ((runWithErrors c l).2 = false →
        (runWithErrors c l).1 = c + countFailures l) := by
  intro l
  induction l with
  | nil =>
    intro c hc
    constructor
    · simp only [runWithErrors, countFailures, List.countP_nil]
      constructor
      · intro hfalse
        exact absurd hfalse (by simp)
      · intro h11
        omega
    · intro _
      simp [runWithErrors, countFailures]
  | cons o rest ih =>
    intro c hc
    cases o with
    | success =>
      have hcount : countFailures (IterOutcome.success :: rest) =
          countFailures rest := by
        simp [countFailures, List.countP_cons]
      rw [show runWithErrors c (IterOutcome.success :: rest) =
          runWithErrors c rest from rfl, hcount]
      exact ih c hc
    | failure =>
      have hcount : countFailures (IterOutcome.failure :: rest) =
          countFailures rest + 1 := by
        simp [countFailures, List.countP_cons]
      by_cases h10 : c + 1 > 10
      · have hrw : runWithErrors c (IterOutcome.failure :: rest) =
            (c + 1, true) := by
          simp [runWithErrors, h10]
        rw [hrw, hcount]
        constructor
        · simp only
          constructor
          · intro _
            omega
          · intro _
            trivial
        · intro hfalse
          simp at hfalse
      · have hrw : runWithErrors c (IterOutcome.failure :: rest) =
            runWithErrors (c + 1) rest := by
          simp [runWithErrors, h10]
        rw [hrw, hcount]
        have := ih (c + 1) (by omega)
        constructor
        · rw [this.1]
          omega
        · intro hfalse
          rw [this.2 hfalse]
          omega

/-- Witness for C4 (amended): a single failure does not stop a fresh
engine, and leaves the counter at the failure count 1. -/
theorem error_counter_cumulative_witness :
    (runWithErrors 0 [IterOutcome.failure]).1 =
      0 + countFailures [IterOutcome.failure] :=
  (error_counter_cumulative [IterOutcome.failure] 0 (by decide)).2 (by decide)

/-- Promise.all over the decodes rejects when any one element rejects. -/
theorem processAllLogs_error_of_mem (dec : DecodeOracle) :
    ∀ (logs : List ILogRawData) (l : ILogRawData) (e : String),
      l ∈ logs → processLog dec l = .error e →
      ∃ e2, processAllLogs dec logs = .error e2 := by
  intro logs
  induction logs with
  | nil =>
    intro l e hmem _
    simp at hmem
  | cons a t ih =>
    intro l e hmem hfail
    rcases List.mem_cons.mp hmem with rfl | hmem2
    · exact ⟨e, by simp [processAllLogs, hfail]⟩
    · rcases h1 : processLog dec a with e1 | r1
      · exact ⟨e1, by simp [processAllLogs, h1]⟩
      · obtain ⟨e2, h2⟩ := ih l e hmem2 hfail
        exact ⟨e2, by simp [processAllLogs, h1, h2]⟩

/-- C5 (amended): a single log whose expected field is absent or malformed
makes the whole index() call reject with the thrown decode error — the log
is not dropped and the rest of the batch is not persisted; the iteration
fails (and is retried with the counted error). Only a log whose first topic
matches neither event signature is silently dropped without an error. -/
theorem decode_failure_rejects_index (dec : DecodeOracle)
    (logs : List ILogRawData) (l : ILogRawData) (e : String)
    (hmem : l ∈ logs) (hfail : processLog dec l = .error e) :
    (∃ e2, indexLogs dec logs = .error e2) ∧
    (∀ log2 : ILogRawData,
      log2.topics.getD 0 "" ≠ TOPIC_SHIELD_ASSETS →
      log2.topics.getD 0 "" ≠ TOPIC_UTXOS_UPDATE →
      processLog dec log2 = .ok none) := by
  constructor
  · obtain ⟨e2, h2⟩ := processAllLogs_error_of_mem dec logs l e hmem hfail
    exact ⟨e2, by simp [indexLogs, h2]⟩
  · intro log2 h1 h2
    unfold processLog
    dsimp only
    rw [if_neg h1, if_neg h2]

/-- Witness for C5 (amended): the batch holding the single malformed log
rejects. -/
theorem decode_failure_rejects_index_witness :
    ∃ e2, indexLogs failingOracle [badLog] = .error e2 :=
  (decode_failure_rejects_index failingOracle [badLog] badLog
    "Faild to decode UTXOsUpdate log" (by simp) rfl).1

theorem unspentRowOf_blockNumber (r : IIndexDecodedResponse) :
    (unspentRowOf r).blockNumber = r.blockNumber := by
  cases h : r.type <;> simp [unspentRowOf, h]

/-- C6 (amended): every decoded result contributes its leaf row (leaves are
inserted in full); a ShieldAssets result contributes an unencrypted unspent
row carrying its public payload and a UTXOsUpdate result an encrypted one
carrying the opaque payload; but an unspent row reaches the insert call iff
its blockNumber is at least the hard-coded threshold 9486466 — unspents
from earlier blocks are withheld for a reason other than a uniqueness-key
duplicate. -/
theorem indexOnDB_partition_filter :
    ∀ (results : List IIndexDecodedResponse),
      (IndexOnDB results).1 = results.map leafRowOf ∧
      ∀ r ∈ results,
        ((unspentRowOf r).isEncrypted = true ↔ r.type = .UTXOS_UPDATE) ∧
        (r.type = .SHIELD_ASSETS → (unspentRowOf r).UTXOs = r.utxos) ∧
        (r.type = .UTXOS_UPDATE →
          (unspentRowOf r).encryptedUTXO = r.encryptedUTXO) ∧
        unspentRowOf r ∈ (IndexOnDB results).2.1 ∧
        (unspentRowOf r ∈ (IndexOnDB results).2.2 ↔
          9486466 ≤ r.blockNumber) := by
  intro results
  refine ⟨rfl, fun r hr => ⟨?_, ?_, ?_, ?_, ?_⟩⟩
  · cases h : r.type <;> simp [unspentRowOf, h]
  · intro h
    simp [unspentRowOf, h]
  · intro h
    simp [unspentRowOf, h]
  · exact List.mem_map_of_mem unspentRowOf hr
  · have h21 : (IndexOnDB results).2.1 = results.map unspentRowOf := rfl
    have h22 : (IndexOnDB results).2.2 =
        (results.map unspentRowOf).filter
          (fun d => d.blockNumber ≥ 9486466) := rfl
    rw [h22, List.mem_filter]
    constructor
    · intro hf
      have := hf.2
      simp only [unspentRowOf_blockNumber, ge_iff_le, decide_eq_true_eq]
        at this
      exact this
    · intro hb
      refine ⟨List.mem_map_of_mem unspentRowOf hr, ?_⟩
      simp only [unspentRowOf_blockNumber, ge_iff_le, decide_eq_true_eq]
      exact hb

/-- Witness for C6 (amended): the below-threshold ShieldAssets result's
unspent row is produced but kept out of the insert call. -/
theorem indexOnDB_partition_filter_witness :
    unspentRowOf shieldResultEx ∈ (IndexOnDB [shieldResultEx]).2.1 ∧
    ¬ (unspentRowOf shieldResultEx ∈ (IndexOnDB [shieldResultEx]).2.2) := by
  have h := (indexOnDB_partition_filter [shieldResultEx]).2 shieldResultEx
    (by simp)
  refine ⟨h.2.2.2.1, fun hmem => ?_⟩
  have := h.2.2.2.2.mp hmem
  revert this
  decide

/-- For an operation failing on every attempt, the retry loop from attempt
a + 1 with r + 1 attempts left ends in the max-retry error of the last
attempt and sleeps the doubling backoff delays in order. -/
theorem retryAux_all_fail {α : Type} (op : Nat → Except String α)
    (d : Nat) (name : String) (mr : Nat) (errs : Nat → String)
    (hop : ∀ n, op n = .error (errs n)) :
    ∀ (r a : Nat) (delays : List Nat),
      retryAux op d name mr (a + 1) (r + 1) delays =
        (.error { operationName := name, lastErrorMessage := errs (a + 1 + r),
                  maxRetries := mr },
         delays ++ (List.range r).map (fun i => d * 2 ^ (a + i))) := by
  intro r
  induction r with
  | zero =>
    intro a delays
    simp [retryAux, hop (a + 1)]
  | succ r ih =>
    intro a delays
    have hstep : retryAux op d name mr (a + 1) (r + 1 + 1) delays =
        retryAux op d name mr (a + 1 + 1) (r + 1) (delays ++ [d * 2 ^ a]) := by
      simp [retryAux, hop (a + 1)]
    rw [hstep, ih (a + 1) (delays ++ [d * 2 ^ a])]
    have herr : a + 1 + 1 + r = a + 1 + (r + 1) := by omega
    have hmap : (List.range r).map (fun i => d * 2 ^ (a + 1 + i)) =
        (List.range r).map ((fun i => d * 2 ^ (a + i)) ∘ Nat.succ) := by
      refine List.map_congr_left (fun i _ => ?_)
      have : a + 1 + i = a + (i + 1) := by omega
      simp [Function.comp, this]
    rw [herr]
    refine congrArg _ ?_
    rw [List.range_succ_eq_map, List.map_cons, List.map_map, ← hmap,
      List.append_assoc, List.singleton_append]
    simp

/-- C7: for an operation failing on every attempt, executeWithRetry runs it
maxRetries times, sleeping retryDelay * 2 ^ (attempt - 1) between
consecutive attempts, and then fails with the max-retry error carrying the
operation name and the message of the last attempt's error; for
maxRetries = 3 and retryDelay = 1000 the inter-attempt delays are 1000 ms
then 2000 ms before the final failure. -/
theorem executeWithRetry_backoff {α : Type} (maxRetries retryDelay : Nat)
    (name : String) (op : Nat → Except String α) (errs : Nat → String)
    (hmr : 1 ≤ maxRetries) (hop : ∀ n, op n = .error (errs n)) :
    executeWithRetry maxRetries retryDelay name op =
      (.error { operationName := name, lastErrorMessage := errs maxRetries,
                maxRetries := maxRetries },
       (List.range (maxRetries - 1)).map (fun i => retryDelay * 2 ^ i)) ∧
    (maxRetries = 3 → retryDelay = 1000 →
      (executeWithRetry maxRetries retryDelay name op).2 = [1000, 2000]) := by
  have h1 : executeWithRetry maxRetries retryDelay name op =
      (.error { operationName := name, lastErrorMessage := errs maxRetries,
                maxRetries := maxRetries },
       (List.range (maxRetries - 1)).map (fun i => retryDelay * 2 ^ i)) := by
    unfold executeWithRetry
    obtain ⟨r, hr⟩ : ∃ r, maxRetries = r + 1 := ⟨maxRetries - 1, by omega⟩
    subst hr
    show retryAux op retryDelay name (r + 1) (0 + 1) (r + 1) [] = _
    rw [retryAux_all_fail op retryDelay name (r + 1) errs hop r 0 []]
    have h01 : 0 + 1 + r = r + 1 := by omega
    rw [h01]
    simp
  refine ⟨h1, fun h3 hd => ?_⟩
  rw [h1, h3, hd]
  show List.map (fun i => 1000 * 2 ^ i) (List.range (3 - 1)) = [1000, 2000]
  decide

/-- Witness for C7: a concrete always-failing operation with maxRetries 3
and retryDelay 1000 sleeps exactly 1000 ms then 2000 ms. -/
theorem executeWithRetry_backoff_witness :
    (executeWithRetry 3 1000 "getLogs" opFail).2 = [1000, 2000] :=
  (executeWithRetry_backoff 3 1000 "getLogs" opFail (fun _ => "boom")
    (by decide) (fun _ => rfl)).2 rfl rfl

theorem insertTrace_counts (dec : DecodeOracle) (logsData : List ILogRawData) :
    ((insertTrace dec logsData).1).countP Action.isCheckpoint = 0 ∧
    ((insertTrace dec logsData).1).countP Action.isSleep = 0 ∧
    ((insertTrace dec logsData).1).any Action.isFetch = false := by
  rcases h : indexLogs dec logsData with e | ⟨l, u, ui⟩
  · simp [insertTrace, h]
  · simp only [insertTrace, h]
    refine ⟨?_, ?_, ?_⟩ <;>
      · split <;> split <;>
          simp [List.countP_append, List.countP_cons, Action.isCheckpoint,
            Action.isSleep, Action.isFetch, List.countP_nil]

theorem fetchTrace_counts (cfg : SyncConfig) (s : SyncState) :
    (fetchTrace cfg s).countP Action.isCheckpoint = 0 ∧
    (fetchTrace cfg s).countP Action.isSleep = 0 ∧
    ((fetchTrace cfg s).any Action.isFetch = true ↔
      (calculateBlockRange cfg s).start ≤ (calculateBlockRange cfg s).endB) := by
  unfold fetchTrace
  dsimp only
  split
  · rename_i h
    refine ⟨rfl, rfl, ?_⟩
    constructor
    · intro hfalse
      simp at hfalse
    · intro hle
      exact absurd hle (not_le.mpr h)
  · rename_i h
    refine ⟨rfl, rfl, ?_⟩
    simp only [List.any_cons, List.any_nil, Action.isFetch, Bool.or_false,
      true_iff]
    omega

/-- C8 (amended): the engine's no-work test ignores blockDifference — only
when currentHeight ≤ lastIndexedBlock (for a nonzero cursor and an already
caught-up stored height) does a round merely idle for the configured delay,
performing no fetch and no checkpoint write. Whenever lastIndexedBlock <
currentHeight the round enters the work loop instead: it writes exactly one
checkpoint and never sleeps, and it fetches logs precisely when
lastIndexedBlock ≤ currentHeight - blockDifference — so in the claim's
regime currentHeight - blockDifference ≤ lastIndexedBlock <
currentHeight the engine busily rewrites the checkpoint without idling
(and at the boundary even fetches). -/
theorem idle_and_work_regimes (cfg : SyncConfig) (dec : DecodeOracle)
    (s : SyncState) (height : Int) (logs : List ILogRawData) :
    (s.startBlockNumber ≠ 0 → height ≤ s.startBlockNumber →
      s.latestBlockNumber ≤ s.startBlockNumber →
      (outerRoundFirstStep cfg dec s height logs).1 =
        [.sleepMs cfg.syncCycleDelayMs]) ∧
    (s.startBlockNumber < height → 0 ≤ cfg.maxBlocksPerBatch →
      ((outerRoundFirstStep cfg dec s height logs).1.countP
          Action.isCheckpoint = 1 ∧
       (outerRoundFirstStep cfg dec s height logs).1.countP
          Action.isSleep = 0 ∧
       ((outerRoundFirstStep cfg dec s height logs).1.any
          Action.isFetch = true ↔
         s.startBlockNumber ≤ height - cfg.blockDifference))) := by
  constructor
  · intro hne hle hlat
    unfold outerRoundFirstStep
    have hinit : initConnection s height = s := by
      unfold initConnection
      rw [if_pos ⟨hne, hle⟩]
    rw [hinit, if_neg (by omega)]
  · intro hlt hbatch
    unfold outerRoundFirstStep
    have hinit : initConnection s height =
        { s with latestBlockNumber := height } := by
      unfold initConnection
      rw [if_neg (by
        intro hcon
        exact absurd hlt (by omega))]
    rw [hinit]
    set s1 : SyncState := { s with latestBlockNumber := height } with hs1
    rw [if_pos (show s1.startBlockNumber < s1.latestBlockNumber from hlt)]
    rcases hi : innerIteration cfg dec s1 logs with ⟨tr, s2, ok⟩
    have h1 : (innerIteration cfg dec s1 logs).1 = tr := by rw [hi]
    have htr : tr = fetchTrace cfg s1 ++
        Action.writeCheckpoint (afterRunSync cfg s1).startBlockNumber
          (afterRunSync cfg s1).latestBlockNumber ::
        (insertTrace dec (iterLogsData cfg s1 logs)).1 := by
      rw [← h1]
      unfold innerIteration
      rcases hit : insertTrace dec (iterLogsData cfg s1 logs) with ⟨ins, ok2⟩
      simp [hit]
    simp only [hi]
    rw [htr]
    have hf := fetchTrace_counts cfg s1
    have hins := insertTrace_counts dec (iterLogsData cfg s1 logs)
    refine ⟨?_, ?_, ?_⟩
    · rw [List.countP_append, List.countP_cons, hf.1, hins.1]
      simp [Action.isCheckpoint]
    · rw [List.countP_append, List.countP_cons, hf.2.1, hins.2.1]
      simp [Action.isSleep]
    · rw [List.any_append, List.any_cons]
      rw [show Action.isFetch
          (.writeCheckpoint (afterRunSync cfg s1).startBlockNumber
            (afterRunSync cfg s1).latestBlockNumber) = false from rfl]
      rw [hins.2.2]
      simp only [Bool.or_false]
      rw [hf.2.2]
      have hstart : (calculateBlockRange cfg s1).start = s.startBlockNumber :=
        rfl
      have hendB : (calculateBlockRange cfg s1).endB =
          (if height - cfg.blockDifference - s.startBlockNumber >
              cfg.maxBlocksPerBatch then
            min (s.startBlockNumber + cfg.maxBlocksPerBatch)
              (height - cfg.blockDifference)
          else height - cfg.blockDifference) := rfl
      rw [hstart, hendB]
      split
      · rename_i hd
        rw [le_min_iff]
        constructor
        · intro _
          omega
        · intro _
          omega
      · exact Iff.rfl

/-- Witness for C8 (amended): an idle round when the height has not passed
the cursor, and a work round (checkpoint write, no sleep, no fetch) when it
has but trails within blockDifference. -/
theorem idle_and_work_regimes_witness :
    (outerRoundFirstStep cfgEx trivialOracle ⟨150, 100⟩ 149 []).1 =
      [.sleepMs cfgEx.syncCycleDelayMs] ∧
    ((outerRoundFirstStep cfgEx trivialOracle ⟨145, 0⟩ 150 []).1.countP
        Action.isCheckpoint = 1 ∧
     (outerRoundFirstStep cfgEx trivialOracle ⟨145, 0⟩ 150 []).1.countP
        Action.isSleep = 0 ∧
     ((outerRoundFirstStep cfgEx trivialOracle ⟨145, 0⟩ 150 []).1.any
        Action.isFetch = true ↔ (145 : Int) ≤ 150 - cfgEx.blockDifference)) :=
  ⟨(idle_and_work_regimes cfgEx trivialOracle ⟨150, 100⟩ 149 []).1
      (by decide) (by decide) (by decide),
   (idle_and_work_regimes cfgEx trivialOracle ⟨145, 0⟩ 150 []).2
      (by decide) (by decide)⟩

end ZlinkIndexer
